import Mathlib

/-!
Verification of the serial remote-execution protocol and the firmware
flashing pipeline of the mu editor modes (src/mu/modes/micropython.py and
src/mu/modes/pixelkit.py), as a shallow embedding: serial traffic is a
trace of write/sleep actions, Qt signals are event values, fallible
external calls (pixelfs operations, urlretrieve, the esptool subprocess)
are parameters carrying their outcome.
-/

namespace Mu

/-- One action performed on the serial channel: a write of a byte string
(bytes as natural numbers below 256) or a settling delay in milliseconds
(the source calls sleep with 0.01 seconds, i.e. 10 ms). -/
inductive SerialAction where
  | write (data : List Nat)
  | sleep (ms : Nat)
deriving DecidableEq, Repr

/-- The byte strings written on the channel, in order, with the delays
dropped. -/
def writesOf : List SerialAction → List (List Nat)
  | [] => []
  | SerialAction.write bs :: rest => bs :: writesOf rest
  | SerialAction.sleep _ :: rest => writesOf rest

/-- Python bytes(code, "ascii"): succeeds with the identical byte list when
every code point is below 128, otherwise raises UnicodeEncodeError
(modelled as none). The input is the tab text as a list of Unicode code
points. -/
def asciiEncode : List Nat → Option (List Nat)
  | [] => some []
  | c :: cs => if c < 128 then (asciiEncode cs).map (fun bs => c :: bs) else none

/-- The part of the view state that run and stop read after any REPL
toggling: whether view.serial is an open connection, and the text of the
current tab (none when there is no current tab). -/
structure ReplView where
  serial : Bool
  current_tab : Option (List Nat)
deriving DecidableEq, Repr

/-- The truthiness of `self.view.current_tab and self.view.current_tab.text()`. -/
def tabHasText (v : ReplView) : Bool :=
  match v.current_tab with
  | some t => !t.isEmpty
  | none => false

/-- MicroPythonMode.run (micropython.py lines 73-92), after the initial
REPL toggle: when the serial connection is open and the current tab has
text, enterRawRepl writes 0x01, then the tab text is encoded as ASCII and
written, then exitRawRepl writes 0x04 and 0x02. The encoding happens
after the 0x01 write; a non-ASCII tab raises UnicodeEncodeError at that
point, leaving the 0x01 write already issued. The second component is the
exception escaping run, if any. -/
def micropython_run (v : ReplView) : List SerialAction × Option String :=
  if v.serial && tabHasText v then
    match asciiEncode (v.current_tab.getD []) with
    | some bs =>
        ([SerialAction.write [0x01], SerialAction.write bs,
          SerialAction.write [0x04], SerialAction.write [0x02]], none)
    | none => ([SerialAction.write [0x01]], some "UnicodeEncodeError")
  else ([], none)

/-- PixelKitMode.run (pixelkit.py lines 264-286): same protocol with a
10 ms settling delay after every write (enterRawRepl writes 0x01 then
sleeps; run writes the code then sleeps; exitRawRepl writes 0x04, sleeps,
writes 0x02, sleeps). -/
def pixelkit_run (v : ReplView) : List SerialAction × Option String :=
  if v.serial && tabHasText v then
    match asciiEncode (v.current_tab.getD []) with
    | some bs =>
        ([SerialAction.write [0x01], SerialAction.sleep 10,
          SerialAction.write bs, SerialAction.sleep 10,
          SerialAction.write [0x04], SerialAction.sleep 10,
          SerialAction.write [0x02], SerialAction.sleep 10], none)
    | none => ([SerialAction.write [0x01], SerialAction.sleep 10],
               some "UnicodeEncodeError")
  else ([], none)

/-- The class attribute micropython.py line 35: force_interrupt = False
(no keyboard interrupt on serial connection). -/
def micropython_force_interrupt : Bool := false

/-- MicroPythonMode.stop (micropython.py lines 94-99): if view.serial is
open, write the single byte 0x03. The force_interrupt flag is never read
by stop. -/
def micropython_stop (v : ReplView) : List SerialAction :=
  if v.serial then [SerialAction.write [0x03]] else []

/-- PixelKitMode.stop (pixelkit.py lines 288-295), after the initial REPL
toggle: if view.serial is open, write the single byte 0x03. -/
def pixelkit_stop (v : ReplView) : List SerialAction :=
  if v.serial then [SerialAction.write [0x03]] else []

theorem asciiEncode_eq_some (code : List Nat) (h : code.all (fun c => c < 128) = true) :
    asciiEncode code = some code := by
  induction code with
  | nil => rfl
  | cons c cs ih =>
    simp only [List.all_cons, Bool.and_eq_true, decide_eq_true_eq] at h
    simp [asciiEncode, h.1, ih h.2]

theorem asciiEncode_eq_none (code : List Nat) (h : code.all (fun c => c < 128) = false) :
    asciiEncode code = none := by
  induction code with
  | nil => simp at h
  | cons c cs ih =>
    by_cases hc : c < 128
    · simp only [List.all_cons, Bool.and_eq_false_iff, decide_eq_false_iff_not] at h
      rcases h with h | h
      · exact absurd hc h
      · simp [asciiEncode, hc, ih h]
    · simp [asciiEncode, hc]

theorem isEmpty_false_of_ne_nil {code : List Nat} (h : code ≠ []) :
    code.isEmpty = false := by
  cases code with
  | nil => exact absurd rfl h
  | cons a l => rfl

/-- C1: for every ASCII source buffer with an open connection and a
non-empty current tab, run issues exactly the writes 0x01, the source
bytes, 0x04, 0x02 in that order with no other write interleaved; the
settling delays are the per-board variant (none for MicroPythonMode,
10 ms after each write for PixelKitMode). -/
theorem run_emits_exact_raw_repl_sequence (code : List Nat)
    (hascii : code.all (fun c => c < 128) = true) (hne : code ≠ []) :
    micropython_run ⟨true, some code⟩ =
      ([SerialAction.write [0x01], SerialAction.write code,
        SerialAction.write [0x04], SerialAction.write [0x02]], none) ∧
    pixelkit_run ⟨true, some code⟩ =
      ([SerialAction.write [0x01], SerialAction.sleep 10,
        SerialAction.write code, SerialAction.sleep 10,
        SerialAction.write [0x04], SerialAction.sleep 10,
        SerialAction.write [0x02], SerialAction.sleep 10], none) ∧
    writesOf (micropython_run ⟨true, some code⟩).1 = [[0x01], code, [0x04], [0x02]] ∧
    writesOf (pixelkit_run ⟨true, some code⟩).1 = [[0x01], code, [0x04], [0x02]] := by
  have henc := asciiEncode_eq_some code hascii
  have hemp := isEmpty_false_of_ne_nil hne
  refine ⟨?_, ?_, ?_, ?_⟩ <;>
    simp [micropython_run, pixelkit_run, tabHasText, hemp, henc, writesOf]

/-- Witness for C1 at the concrete source print(1+1). -/
theorem run_emits_exact_raw_repl_sequence_witness :
    micropython_run ⟨true, some [112, 114, 105, 110, 116, 40, 49, 43, 49, 41]⟩ =
      ([SerialAction.write [0x01],
        SerialAction.write [112, 114, 105, 110, 116, 40, 49, 43, 49, 41],
        SerialAction.write [0x04], SerialAction.write [0x02]], none) :=
  (run_emits_exact_raw_repl_sequence [112, 114, 105, 110, 116, 40, 49, 43, 49, 41]
    (by decide) (by decide)).1

/-- C2 counterexample: with an open connection and the single non-ASCII
character U+00E9 in the tab, run does raise UnicodeEncodeError but has
already issued a write (the 0x01 enter-raw byte), so it is false that it
issues no writes at all. -/
theorem run_nonascii_counterexample :
    (micropython_run ⟨true, some [233]⟩).2 = some "UnicodeEncodeError" ∧
    (micropython_run ⟨true, some [233]⟩).1 ≠ [] := by
  constructor
  · rfl
  · decide

/-- C2 amended: for every non-ASCII source, run raises an encoding error
and the only traffic already issued is the enter-raw prefix: the single
write 0x01 for MicroPythonMode, and the write 0x01 followed by the 10 ms
settling delay for PixelKitMode; no source bytes are written. -/
theorem run_nonascii_only_enter_sequence (code : List Nat)
    (h : code.all (fun c => c < 128) = false) :
    micropython_run ⟨true, some code⟩ =
      ([SerialAction.write [0x01]], some "UnicodeEncodeError") ∧
    pixelkit_run ⟨true, some code⟩ =
      ([SerialAction.write [0x01], SerialAction.sleep 10],
       some "UnicodeEncodeError") := by
  have hne : code ≠ [] := by rintro rfl; simp at h
  have hemp := isEmpty_false_of_ne_nil hne
  have henc := asciiEncode_eq_none code h
  constructor <;> simp [micropython_run, pixelkit_run, tabHasText, hemp, henc]

/-- Witness for the amended C2 at the concrete non-ASCII tab text U+00E9. -/
theorem run_nonascii_only_enter_sequence_witness :
    micropython_run ⟨true, some [233]⟩ =
      ([SerialAction.write [0x01]], some "UnicodeEncodeError") :=
  (run_nonascii_only_enter_sequence [233] (by decide)).1

/-- C5 counterexample: MicroPythonMode has force_interrupt = False (the
board capability flag that the claim says disables interrupts), yet stop
on an open connection still writes 0x03 rather than being a no-op: the
flag is never consulted by stop. -/
theorem stop_counterexample_force_interrupt :
    ¬ (micropython_force_interrupt = false → micropython_stop ⟨true, none⟩ = []) := by
  decide

/-- C5 amended: stop writes exactly the single byte 0x03 whenever the
connection is open and nothing when it is closed, in both modes,
regardless of the force_interrupt capability flag (which stop never
reads). -/
theorem stop_writes_exactly_interrupt (v : ReplView) :
    (v.serial = true →
      micropython_stop v = [SerialAction.write [0x03]] ∧
      pixelkit_stop v = [SerialAction.write [0x03]]) ∧
    (v.serial = false → micropython_stop v = [] ∧ pixelkit_stop v = []) := by
  constructor <;> intro h <;> simp [micropython_stop, pixelkit_stop, h]

/-- Witness for the amended C5 on an open connection. -/
theorem stop_writes_exactly_interrupt_witness :
    micropython_stop ⟨true, none⟩ = [SerialAction.write [0x03]] ∧
    pixelkit_stop ⟨true, none⟩ = [SerialAction.write [0x03]] :=
  (stop_writes_exactly_interrupt ⟨true, none⟩).1 rfl

/-- C10: in both modes, if after any REPL toggling there is no open
connection, or no current tab, or the current tab text is empty, run
performs no serial action at all and raises nothing. -/
theorem run_silent_without_connection_tab_or_text (v : ReplView)
    (h : v.serial = false ∨ v.current_tab = none ∨ v.current_tab = some []) :
    micropython_run v = ([], none) ∧ pixelkit_run v = ([], none) := by
  have hc : (v.serial && tabHasText v) = false := by
    rcases h with h | h | h <;> simp [tabHasText, h]
  constructor <;> simp [micropython_run, pixelkit_run, hc]

/-- Witness for C10 with no connection and no tab. -/
theorem run_silent_without_connection_tab_or_text_witness :
    micropython_run ⟨false, none⟩ = ([], none) ∧
    pixelkit_run ⟨false, none⟩ = ([], none) :=
  run_silent_without_connection_tab_or_text ⟨false, none⟩ (Or.inl rfl)

/-- A Qt signal emitted by DeviceFlasher (pixelkit.py): on_step carrying
an erase-stage line, a write-stage line, or a plain message; on_flash_fail
carrying the stringified exception; and the QThread finished signal that
fires when run returns. -/
inductive FlashSignal where
  | stepErase (line : List Nat)
  | stepWrite (line : List Nat)
  | stepMsg (msg : String)
  | flashFail (msg : String)
  | finished
deriving DecidableEq, Repr

/-- DeviceFlasher.erase_flash (pixelkit.py lines 54-66): the loop reads
lines from the esptool subprocess until EOF; each non-empty line is
emitted as an on_step event and appended to the accumulated result. The
input is the sequence of readline results the tool produced. -/
def erase_flash : List (List Nat) → List FlashSignal × List Nat
  | [] => ([], [])
  | l :: ls =>
    let r := erase_flash ls
    if l.isEmpty then r else (FlashSignal.stepErase l :: r.1, l ++ r.2)

/-- DeviceFlasher.write_flash inner loop (pixelkit.py lines 68-85): read
the tool output byte by byte; on a CR (13) or LF (10) emit the
accumulated line as an on_step event and append it to the result,
otherwise extend the accumulated line. At EOF the pending line is
discarded without being emitted. -/
def write_loop : List Nat → List Nat → List FlashSignal × List Nat
  | _, [] => ([], [])
  | line, b :: bs =>
    if b = 13 ∨ b = 10 then
      let r := write_loop [] bs
      (FlashSignal.stepWrite line :: r.1, line ++ r.2)
    else write_loop (line ++ [b]) bs

/-- DeviceFlasher.write_flash on a full tool output stream. -/
def write_flash (out : List Nat) : List FlashSignal × List Nat :=
  write_loop [] out

/-- The lines of a tool output stream, read off the spec wording: the
stream split at every CR or LF boundary, with the final unterminated
segment dropped. -/
def toolLines : List Nat → List (List Nat)
  | [] => []
  | b :: bs =>
    if b = 13 ∨ b = 10 then [] :: toolLines bs
    else
      match toolLines bs with
      | [] => []
      | l :: ls => (b :: l) :: ls

/-- The fixed versioned firmware URL (pixelkit.py line 91). -/
def firmware_url : String :=
  "http://micropython.org/resources/firmware/esp32-20180511-v1.9.4.bin"

/-- DeviceFlasher.download_firmware (pixelkit.py lines 87-97): create a
temporary file name, emit one on_step notification, then call
urlretrieve (whose outcome is the fetch parameter) and return the
temporary name. The result is the triple of events emitted before the
fetch, the stage outcome, and the events emitted after the fetch (none
in the source). -/
def download_firmware (fetch : Except String Unit) (tmpName : String) :
    List FlashSignal × Except String String × List FlashSignal :=
  ([FlashSignal.stepMsg "Downloading firmware."],
   fetch.map (fun _ => tmpName), [])

/-- DeviceFlasher.run (pixelkit.py lines 99-111): download, then erase,
then write, inside one try block whose handler emits on_flash_fail with
the stringified exception. Each stage is a parameter carrying the events
it emitted before returning or raising, and its outcome; the write stage
is a function of the downloaded file name and is only invoked when erase
returned normally. The result is the full ordered event trace of run. -/
def flasher_run
    (download : List FlashSignal × Except String String × List FlashSignal)
    (erase : List FlashSignal × Except String (List Nat))
    (write : String → List FlashSignal × Except String (List Nat)) :
    List FlashSignal :=
  match download with
  | (dpre, Except.error e, _) => dpre ++ [FlashSignal.flashFail e]
  | (dpre, Except.ok fname, dpost) =>
    match erase with
    | (eevs, Except.error e) => dpre ++ dpost ++ eevs ++ [FlashSignal.flashFail e]
    | (eevs, Except.ok _) =>
      match write fname with
      | (wevs, Except.error e) =>
          dpre ++ dpost ++ eevs ++ wevs ++ [FlashSignal.flashFail e]
      | (wevs, Except.ok _) => dpre ++ dpost ++ eevs ++ wevs

/-- The complete signal trace of one flash job: the signals emitted by
run, followed by the QThread finished signal, which fires when run
returns whether or not it failed (pixelkit.py line 309 connects
flash_finished to it unconditionally). -/
def flash_job_signals
    (download : List FlashSignal × Except String String × List FlashSignal)
    (erase : List FlashSignal × Except String (List Nat))
    (write : String → List FlashSignal × Except String (List Nat)) :
    List FlashSignal :=
  flasher_run download erase write ++ [FlashSignal.finished]

/-- A terminal notice delivered to the user: failed is the flash_failed
handler (connected to on_flash_fail), succeeded is the flash_finished
handler (connected to finished), which announces a successful flash. -/
inductive TerminalNotice where
  | succeeded
  | failed (msg : String)
deriving DecidableEq, Repr

/-- The terminal notices a signal trace produces, per the connections
made in PixelKitMode.flash (pixelkit.py lines 309-311). -/
def flash_terminal_notices (sigs : List FlashSignal) : List TerminalNotice :=
  sigs.filterMap fun s =>
    match s with
    | FlashSignal.flashFail m => some (TerminalNotice.failed m)
    | FlashSignal.finished => some TerminalNotice.succeeded
    | _ => none

/-- A Qt signal emitted by FileManager (pixelkit.py lines 114-196). -/
inductive FileEvent where
  | listFiles (names : List String)
  | getFile (name : String)
  | putFile (name : String)
  | deleteFile (name : String)
  | listFail
  | getFail (name : String)
  | putFail (name : String)
  | deleteFail (name : String)
deriving DecidableEq, Repr

/-- os.path.basename for POSIX-style separators, as used by
FileManager.put. -/
def basename (s : String) : String :=
  (s.splitOn "/").getLastD s

/-- FileManager.ls (pixelkit.py lines 148-158): the pixelfs.ls call
outcome is the parameter; on success emit on_list_files with the tuple,
on any exception emit on_list_fail. -/
def fm_ls (r : Except String (List String)) : List FileEvent :=
  match r with
  | Except.ok names => [FileEvent.listFiles names]
  | Except.error _ => [FileEvent.listFail]

/-- FileManager.get (pixelkit.py lines 160-171). -/
def fm_get (microbit_filename local_filename : String)
    (r : Except String Unit) : List FileEvent :=
  match r with
  | Except.ok _ => [FileEvent.getFile microbit_filename]
  | Except.error _ => [FileEvent.getFail microbit_filename]

/-- FileManager.put (pixelkit.py lines 173-184): success emits the
basename of the local file, failure emits the full local path. -/
def fm_put (local_filename : String) (r : Except String Unit) : List FileEvent :=
  match r with
  | Except.ok _ => [FileEvent.putFile (basename local_filename)]
  | Except.error _ => [FileEvent.putFail local_filename]

/-- FileManager.delete (pixelkit.py lines 186-196). -/
def fm_delete (microbit_filename : String) (r : Except String Unit) :
    List FileEvent :=
  match r with
  | Except.ok _ => [FileEvent.deleteFile microbit_filename]
  | Except.error _ => [FileEvent.deleteFail microbit_filename]

/-- C3: when the erase stage raises, the write stage is never invoked
(the trace does not depend on the write parameter at all) and the last
event run emits is on_flash_fail carrying the erase-stage error; when the
write stage raises, the last event run emits is on_flash_fail carrying
the write-stage error. -/
theorem flash_erase_write_failure_terminal
    (dpre dpost eevs wevs : List FlashSignal) (fname : String) (r : List Nat) :
    (∀ (e : String) (write : String → List FlashSignal × Except String (List Nat)),
        flasher_run (dpre, Except.ok fname, dpost) (eevs, Except.error e) write =
          dpre ++ dpost ++ eevs ++ [FlashSignal.flashFail e]) ∧
    (∀ e : String,
        flasher_run (dpre, Except.ok fname, dpost) (eevs, Except.ok r)
            (fun _ => (wevs, Except.error e)) =
          dpre ++ dpost ++ eevs ++ wevs ++ [FlashSignal.flashFail e]) :=
  ⟨fun _ _ => rfl, fun _ => rfl⟩

/-- C4 evaluated at a failing input: a flash job whose download stage
raises delivers the failed notice and then, because flash_finished is
connected to the unconditional QThread finished signal, also the
succeeded notice for the very same job. -/
theorem flash_failed_job_also_signals_success :
    flash_terminal_notices (flash_job_signals
        (download_firmware (Except.error "no internet") "/tmp/fw.bin")
        ([], Except.ok []) (fun _ => ([], Except.ok []))) =
      [TerminalNotice.failed "no internet", TerminalNotice.succeeded] := rfl

/-- C6: the four file-manager operations each emit exactly one event,
the success event on success and the failure event on any exception,
never letting the exception propagate; but the flash run, evaluated at a
failing erase stage, delivers its one failure event and then the
finished signal of the success path as well, so the flash job does not
emit exactly one of its success or failure events. -/
theorem worker_ops_single_event_flash_run_double :
    (∀ names : List String, fm_ls (Except.ok names) = [FileEvent.listFiles names]) ∧
    (∀ e : String, fm_ls (Except.error e) = [FileEvent.listFail]) ∧
    (∀ mf lf : String, fm_get mf lf (Except.ok ()) = [FileEvent.getFile mf]) ∧
    (∀ (mf lf e : String), fm_get mf lf (Except.error e) = [FileEvent.getFail mf]) ∧
    (∀ lf : String, fm_put lf (Except.ok ()) = [FileEvent.putFile (basename lf)]) ∧
    (∀ lf e : String, fm_put lf (Except.error e) = [FileEvent.putFail lf]) ∧
    (∀ mf : String, fm_delete mf (Except.ok ()) = [FileEvent.deleteFile mf]) ∧
    (∀ mf e : String, fm_delete mf (Except.error e) = [FileEvent.deleteFail mf]) ∧
    flash_terminal_notices (flash_job_signals
        (download_firmware (Except.ok ()) "/tmp/fw.bin")
        ([], Except.error "erase failed") (fun _ => ([], Except.ok []))) =
      [TerminalNotice.failed "erase failed", TerminalNotice.succeeded] :=
  ⟨fun _ => rfl, fun _ => rfl, fun _ _ => rfl, fun _ _ _ => rfl,
   fun _ => rfl, fun _ _ => rfl, fun _ => rfl, fun _ _ => rfl, rfl⟩

theorem erase_events_eq_lines (lines : List (List Nat))
    (h : ∀ l ∈ lines, l ≠ []) :
    (erase_flash lines).1 = lines.map FlashSignal.stepErase := by
  induction lines with
  | nil => rfl
  | cons l ls ih =>
    have hl : l.isEmpty = false :=
      isEmpty_false_of_ne_nil (h l (List.mem_cons_self l ls))
    have ihs := ih (fun x hx => h x (List.mem_cons_of_mem l hx))
    simp [erase_flash, hl, ihs]

theorem write_loop_events_eq_toolLines (bs : List Nat) :
    ∀ acc : List Nat,
      (write_loop acc bs).1 =
        match toolLines bs with
        | [] => []
        | l :: ls =>
            FlashSignal.stepWrite (acc ++ l) :: ls.map FlashSignal.stepWrite := by
  induction bs with
  | nil => intro acc; rfl
  | cons b bs ih =>
    intro acc
    by_cases hb : b = 13 ∨ b = 10
    · have h0 := ih []
      simp only [write_loop, toolLines, if_pos hb]
      rw [h0]
      cases htl : toolLines bs with
      | nil => simp
      | cons l ls => simp
    · have h1 := ih (acc ++ [b])
      simp only [write_loop, toolLines, if_neg hb]
      rw [h1]
      cases htl : toolLines bs with
      | nil => simp
      | cons l ls => simp

/-- C7 counterexample: a write-stage run whose tool output is the
non-empty stream abc with no CR/LF emits no progress event at all before
the stage completes, because the pending line is discarded at EOF. -/
theorem write_stage_silent_without_newline :
    (write_flash [97, 98, 99]).1 = [] ∧ ([97, 98, 99] : List Nat) ≠ [] := by
  constructor
  · rfl
  · decide

/-- C7 amended: erase-stage progress events are exactly the lines the
tool produced, in order, and at least one is emitted whenever the tool
produced any line; write-stage progress events are exactly the CR/LF
delimited segments of the tool output, in order, with the final
unterminated segment dropped, so a write run whose output contains no
CR/LF emits no event. -/
theorem flash_progress_events_in_order (lines : List (List Nat)) (out : List Nat)
    (hlines : ∀ l ∈ lines, l ≠ []) :
    (erase_flash lines).1 = lines.map FlashSignal.stepErase ∧
    (lines ≠ [] → (erase_flash lines).1 ≠ []) ∧
    (write_flash out).1 = (toolLines out).map FlashSignal.stepWrite := by
  have he := erase_events_eq_lines lines hlines
  refine ⟨he, ?_, ?_⟩
  · intro hne
    rw [he]
    simpa using hne
  · have hw := write_loop_events_eq_toolLines out []
    rw [write_flash, hw]
    cases htl : toolLines out with
    | nil => rfl
    | cons l ls => simp

/-- Witness for the amended C7 on a one-line erase output and the write
output a CR. -/
theorem flash_progress_events_in_order_witness :
    (erase_flash [[101]]).1 = [FlashSignal.stepErase [101]] ∧
    (write_flash [97, 13]).1 = [FlashSignal.stepWrite [97]] :=
  ⟨(flash_progress_events_in_order [[101]] [97, 13] (by decide)).1,
   (flash_progress_events_in_order [[101]] [97, 13] (by decide)).2.2⟩

/-- C8 counterexample: in a successful download stage the whole
notification traffic is the single on_step before the fetch; the list of
events after the fetch is empty, so no progress notification is emitted
after the download. -/
theorem download_no_notification_after :
    (download_firmware (Except.ok ()) "/tmp/fw.bin").1 =
      [FlashSignal.stepMsg "Downloading firmware."] ∧
    (download_firmware (Except.ok ()) "/tmp/fw.bin").2.2 = [] :=
  ⟨rfl, rfl⟩

/-- C8 amended: the download stage fetches the firmware from the fixed
versioned URL into the freshly created temporary file name and emits
exactly one progress notification, before the download and none after; a
failure during the fetch makes run terminate with on_flash_fail carrying
the underlying cause. -/
theorem download_stage_behaviour :
    firmware_url =
      "http://micropython.org/resources/firmware/esp32-20180511-v1.9.4.bin" ∧
    (∀ (fetch : Except String Unit) (tmp : String),
        (download_firmware fetch tmp).1 =
          [FlashSignal.stepMsg "Downloading firmware."] ∧
        (download_firmware fetch tmp).2.2 = []) ∧
    (∀ tmp : String, (download_firmware (Except.ok ()) tmp).2.1 = Except.ok tmp) ∧
    (∀ (e tmp : String) (erase : List FlashSignal × Except String (List Nat))
        (write : String → List FlashSignal × Except String (List Nat)),
        flasher_run (download_firmware (Except.error e) tmp) erase write =
          [FlashSignal.stepMsg "Downloading firmware.", FlashSignal.flashFail e]) :=
  ⟨rfl, fun _ _ => ⟨rfl, rfl⟩, fun _ => rfl, fun _ _ _ _ => rfl⟩

/-- The mode state that governs flashing (pixelkit.py lines 297-343):
whether the mpflash affordance is enabled, and how many started flash
threads have not yet terminated. -/
structure ModeState where
  mpflashEnabled : Bool
  activeJobs : Nat
deriving DecidableEq, Repr

/-- The events the control thread processes: the user activating the
flash affordance (with the outcome of the confirmation dialog and of
pixelfs.find_pixelkit as parameters), and the termination of a flash
thread (whose handlers flash_finished and flash_failed both re-enable
the buttons). -/
inductive UiEvent where
  | pressFlash (confirmOk : Bool) (portFound : Bool)
  | jobTerminated
deriving DecidableEq, Repr

/-- The body of PixelKitMode.flash (pixelkit.py lines 297-314), as run
when the handler is invoked: on confirmation and a found port it
disables the affordances and starts one DeviceFlasher thread; with no
port it calls flash_failed, which re-enables the buttons; on cancel it
does nothing. -/
def pk_flash (confirmOk portFound : Bool) (s : ModeState) : ModeState :=
  if confirmOk then
    if portFound then { mpflashEnabled := false, activeJobs := s.activeJobs + 1 }
    else { s with mpflashEnabled := true }
  else s

/-- Modelled from the spec: set_buttons and the action wiring live in
mu.modes.base and the view, outside the excerpted sources; per the spec
the mode exposes mutually exclusive UI affordances, so a disabled
mpflash affordance cannot invoke its handler. One control-thread step
under that model. -/
def pk_step (s : ModeState) : UiEvent → ModeState
  | UiEvent.pressFlash c p => if s.mpflashEnabled then pk_flash c p s else s
  | UiEvent.jobTerminated =>
      if s.activeJobs = 0 then s
      else { mpflashEnabled := true, activeJobs := s.activeJobs - 1 }

/-- The initial mode state: affordance enabled, no job running. -/
def pk_init : ModeState := { mpflashEnabled := true, activeJobs := 0 }

/-- The state reached from the initial state by a sequence of events. -/
def pk_reach (evs : List UiEvent) : ModeState :=
  evs.foldl pk_step pk_init

/-- The inductive invariant: never more than one active job, and while
the flash affordance is enabled there is no active job. -/
def pk_inv (s : ModeState) : Prop :=
  s.activeJobs ≤ 1 ∧ (s.mpflashEnabled = true → s.activeJobs = 0)

theorem pk_inv_step (s : ModeState) (e : UiEvent) (h : pk_inv s) :
    pk_inv (pk_step s e) := by
  obtain ⟨h1, h2⟩ := h
  cases e with
  | pressFlash c p =>
    by_cases hse : s.mpflashEnabled = true
    · have h0 := h2 hse
      cases c with
      | false =>
        simp only [pk_step, if_pos hse, pk_flash, Bool.false_eq_true,
          if_false]
        exact ⟨h1, h2⟩
      | true =>
        cases p with
        | false =>
          simp only [pk_step, if_pos hse, pk_flash, if_true,
            Bool.false_eq_true, if_false]
          exact ⟨h1, fun _ => h0⟩
        | true =>
          simp only [pk_step, if_pos hse, pk_flash, if_true]
          refine ⟨?_, ?_⟩
          · show s.activeJobs + 1 ≤ 1
            omega
          · intro hfalse
            exact absurd hfalse Bool.false_ne_true
    · simp only [pk_step, if_neg hse]
      exact ⟨h1, h2⟩
  | jobTerminated =>
    by_cases hz : s.activeJobs = 0
    · simp only [pk_step, if_pos hz]
      exact ⟨h1, h2⟩
    · simp only [pk_step, if_neg hz]
      refine ⟨?_, fun _ => ?_⟩
      · show s.activeJobs - 1 ≤ 1
        omega
      · show s.activeJobs - 1 = 0
        omega

theorem pk_inv_foldl (evs : List UiEvent) :
    ∀ s : ModeState, pk_inv s → pk_inv (evs.foldl pk_step s) := by
  induction evs with
  | nil => intro s h; exact h
  | cons e es ih => intro s h; exact ih _ (pk_inv_step s e h)

theorem pk_inv_reach (evs : List UiEvent) : pk_inv (pk_reach evs) :=
  pk_inv_foldl evs pk_init ⟨Nat.zero_le 1, fun _ => rfl⟩

/-- C9: in every state reachable by the control thread, at most one
flash job is active, and a flash request arriving while a job is active
leaves the state unchanged: it never starts a second concurrent job on
the same device. -/
theorem single_active_flash_job (evs : List UiEvent) (c p : Bool) :
    (pk_reach evs).activeJobs ≤ 1 ∧
    (1 ≤ (pk_reach evs).activeJobs →
        pk_step (pk_reach evs) (UiEvent.pressFlash c p) = pk_reach evs) := by
  obtain ⟨h1, h2⟩ := pk_inv_reach evs
  refine ⟨h1, fun hj => ?_⟩
  have he : (pk_reach evs).mpflashEnabled = false := by
    cases hv : (pk_reach evs).mpflashEnabled
    · rfl
    · have h0 := h2 hv
      omega
  simp [pk_step, he]

/-- Witness for C9: after one accepted flash request there is one active
job, and a second request is a no-op. -/
theorem single_active_flash_job_witness :
    1 ≤ (pk_reach [UiEvent.pressFlash true true]).activeJobs ∧
    pk_step (pk_reach [UiEvent.pressFlash true true])
        (UiEvent.pressFlash true true) =
      pk_reach [UiEvent.pressFlash true true] :=
  ⟨by decide,
   (single_active_flash_job [UiEvent.pressFlash true true] true true).2 (by decide)⟩

end Mu
